import Mathlib

/-!
Shallow embedding of the HARI upload orchestrator
(`hari_client/upload/hari_uploader.py`) together with the models it uses.

The uploader code is embedded function by function.  The `models` module and
the `HARIClient` class are not part of the sources at hand; the few pieces of
them that the uploader touches (`BulkResponse`, its summary, the per-item
`AnnotatableCreateResponse`, the status enum and the `BULK_UPLOAD_LIMIT`
constant) are modelled from the spec, as noted on each definition.
-/

namespace HariUpload

/-- Modelled from the spec: the bulk-operation status enum (`models.
BulkOperationStatusEnum`), with the three statuses the spec names:
success / partial success / failure. -/
inductive BulkOperationStatusEnum where
  | SUCCESS
  | PARTIAL_SUCCESS
  | FAILURE
deriving DecidableEq, Repr

/-- In Python, a bare enum member such as `models.BulkOperationStatusEnum.SUCCESS`
is truthy (no `__bool__`/`__len__` makes it falsy; as a `str` enum it is a
non-empty string).  The source's `elif` at `_merge_bulk_responses` evaluates
`SUCCESS or (PARTIAL_SUCCESS in statuses)`, whose first operand is this. -/
def BulkOperationStatusEnum.pyTruthy (_ : BulkOperationStatusEnum) : Bool := true

/-- Modelled from the spec: the aggregate counts of a `BulkResponse`
(total, successful, failed), zero-initialised. -/
structure BulkResponseSummary where
  total : Nat := 0
  successful : Nat := 0
  failed : Nat := 0
deriving DecidableEq, Repr

/-- Modelled from the spec: one per-item outcome of a batch response
(`models.AnnotatableCreateResponse`), carrying the correlation token
(`bulk_operation_annotatable_id`) and the server-assigned `item_id`.
Only the two fields the uploader reads are modelled. -/
structure AnnotatableCreateResponse where
  bulk_operation_annotatable_id : Option String := none
  item_id : String := ""
deriving DecidableEq, Repr

/-- Modelled from the spec: a batch response (`models.BulkResponse`) with a
status, the list of per-item outcomes, and aggregate counts.  The default
value mirrors `models.BulkResponse()` as used by the uploader: empty results
and zero counts (the default status is never observable through
`_merge_bulk_responses`, which always assigns one). -/
structure BulkResponse where
  status : BulkOperationStatusEnum := .SUCCESS
  results : List AnnotatableCreateResponse := []
  summary : BulkResponseSummary := {}
deriving DecidableEq, Repr

/-- Embeds `HARIMediaObject`: `media_id : str = ""` (reserved, set by the
uploader after the parent media upload) and
`bulk_operation_annotatable_id : str | None = None` (reserved, set by the
uploader).  The geometry payload plays no role in the embedded code paths. -/
structure HARIMediaObject where
  back_reference : String
  media_id : String := ""
  bulk_operation_annotatable_id : Option String := none
deriving DecidableEq, Repr

/-- Embeds `HARIMedia`: a list of child `media_objects` and
`bulk_operation_annotatable_id : str | None = ""` (reserved, set by the
uploader). -/
structure HARIMedia where
  back_reference : String
  media_objects : List HARIMediaObject := []
  bulk_operation_annotatable_id : Option String := some ""
deriving DecidableEq, Repr

/-- Python truthiness of a `str | None` value: `None` and `""` are falsy,
any non-empty string is truthy.  This is the test `if v:` in the validators
and `if not item.bulk_operation_annotatable_id:` in the id setter. -/
def optTruthy : Option String → Bool
  | none => false
  | some s => !s.isEmpty

/-- The `ValueError` raised by the `field_must_not_be_set` validators of
`HARIMedia` and `HARIMediaObject`, identified here by the first sentence of
its message (the source text continues: used and set by HARIUploader
internals). -/
def fieldMustNotBeSetMsg : String :=
  "The field must not be set on object instantiation."

/-- Embeds pydantic construction of a `HARIMediaObject`: the
`field_must_not_be_set` validator runs on `media_id` and
`bulk_operation_annotatable_id` and raises `ValueError` when the supplied
value is truthy; otherwise the object is built with the given fields. -/
def mkHARIMediaObject (back_reference : String) (media_id : String)
    (bulk_operation_annotatable_id : Option String) :
    Except String HARIMediaObject :=
  if !media_id.isEmpty then .error fieldMustNotBeSetMsg
  else if optTruthy bulk_operation_annotatable_id then .error fieldMustNotBeSetMsg
  else .ok { back_reference, media_id, bulk_operation_annotatable_id }

/-- Embeds pydantic construction of a `HARIMedia`: the
`field_must_not_be_set` validator runs on `bulk_operation_annotatable_id`
and raises `ValueError` when the supplied value is truthy. -/
def mkHARIMedia (back_reference : String) (media_objects : List HARIMediaObject)
    (bulk_operation_annotatable_id : Option String) :
    Except String HARIMedia :=
  if optTruthy bulk_operation_annotatable_id then .error fieldMustNotBeSetMsg
  else .ok { back_reference, media_objects, bulk_operation_annotatable_id }

/-- Embeds `_merge_bulk_responses(*args)`.  Zero args: an empty response with
status set to SUCCESS.  One arg: returned as is.  Two or more: results are
concatenated and the summary counts summed over all args in order; the status
set is collected and the status rolled up by the source's
`if len(statuses) == 1 / elif SUCCESS or PARTIAL_SUCCESS in statuses / else`
chain, reproduced faithfully (including the bare enum member as the first
operand of the `or`). -/
def _merge_bulk_responses (args : List BulkResponse) : BulkResponse :=
  match args with
  | [] => { ({} : BulkResponse) with status := .SUCCESS }
  | [x] => x
  | _ :: _ :: _ =>
    let results := args.foldl (fun acc r => acc ++ r.results) []
    let total := args.foldl (fun acc r => acc + r.summary.total) 0
    let successful := args.foldl (fun acc r => acc + r.summary.successful) 0
    let failed := args.foldl (fun acc r => acc + r.summary.failed) 0
    let statuses := (args.map (·.status)).dedup
    let status :=
      if statuses.length = 1 then
        statuses.headD .SUCCESS
      else if BulkOperationStatusEnum.pyTruthy .SUCCESS
          || statuses.contains .PARTIAL_SUCCESS then
        .PARTIAL_SUCCESS
      else
        .FAILURE
    { status := status
      results := results
      summary := { total := total, successful := successful, failed := failed } }

/-- Worker for `planBatches`.  The first list argument is fuel bounding the
number of loop iterations, mirroring the finiteness of Python's
`range(0, len(items), limit)`: the loop body runs at most `len(items)` times
(for any positive step), so the original item list itself serves as fuel and
the fuel patterns of the first two equations are never short when
`planBatches` calls this with `fuel = items` and a positive `limit`. -/
def planBatchesGo (limit : Nat) : List α → List α → List (List α)
  | _, [] => []
  | [], _ :: _ => []
  | _ :: fuel, a :: rest =>
    (a :: rest).take limit :: planBatchesGo limit fuel ((a :: rest).drop limit)

/-- The batch slicing used twice in the source, in `upload` for medias and in
`_upload_media_objects_in_batches` for media objects:
`for idx in range(0, len(items), limit): items[idx : idx + limit]`.
For `limit = 0` Python's `range` would raise; the source always passes the
positive `HARIClient.BULK_UPLOAD_LIMIT`. -/
def planBatches (limit : Nat) (items : List α) : List (List α) :=
  planBatchesGo limit items items

/-- Modelled from the spec: the client-side generated correlation token
(`str(uuid.uuid4())` in `_set_bulk_operation_annotatable_id`).  The model
draws the n-th token of a session from an injective supply of non-empty
strings; the uploader threads the supply index through the pipeline. -/
def uuid4 (n : Nat) : String := "uuid4-" ++ String.mk (List.replicate n (Char.ofNat 120))

/-- Embeds the guarded assignment in `_set_bulk_operation_annotatable_id`:
`if not item.bulk_operation_annotatable_id: item.bulk_operation_annotatable_id = fresh`,
on the field value, with `fresh` the freshly drawn token. -/
def _set_bulk_operation_annotatable_id (cur : Option String) (fresh : String) :
    Option String :=
  if optTruthy cur then cur else some fresh

/-- `_set_bulk_operation_annotatable_id` applied to a media, threading the
token-supply index: the index advances exactly when a token was drawn. -/
def setIdMedia (m : HARIMedia) (ctr : Nat) : HARIMedia × Nat :=
  ({ m with bulk_operation_annotatable_id :=
      _set_bulk_operation_annotatable_id m.bulk_operation_annotatable_id (uuid4 ctr) },
   if optTruthy m.bulk_operation_annotatable_id then ctr else ctr + 1)

/-- `_set_bulk_operation_annotatable_id` applied to a media object, threading
the token-supply index. -/
def setIdMediaObject (mo : HARIMediaObject) (ctr : Nat) : HARIMediaObject × Nat :=
  ({ mo with bulk_operation_annotatable_id :=
      _set_bulk_operation_annotatable_id mo.bulk_operation_annotatable_id (uuid4 ctr) },
   if optTruthy mo.bulk_operation_annotatable_id then ctr else ctr + 1)

/-- The id-assignment loop at the head of `_upload_media_batch`:
`for media in medias_to_upload: self._set_bulk_operation_annotatable_id(item=media)`. -/
def assignMediaIds : List HARIMedia → Nat → List HARIMedia × Nat
  | [], ctr => ([], ctr)
  | m :: rest, ctr =>
    let (m', ctr') := setIdMedia m ctr
    let (rest', ctr'') := assignMediaIds rest ctr'
    (m' :: rest', ctr'')

/-- The id-assignment loop at the head of `_upload_media_object_batch`. -/
def assignMediaObjectIds : List HARIMediaObject → Nat → List HARIMediaObject × Nat
  | [], ctr => ([], ctr)
  | mo :: rest, ctr =>
    let (mo', ctr') := setIdMediaObject mo ctr
    let (rest', ctr'') := assignMediaObjectIds rest ctr'
    (mo' :: rest', ctr'')

/-- The two distinct `HARIMediaUploadError` raise sites of
`_update_hari_media_object_media_ids`, distinguished by their messages:
the "couldn't find ... in the upload response" case (the spec's
`MissingCorrelationError`) and the "contains multiple items for ..." case
(the spec's `DuplicateCorrelationError`), each carrying the offending
media's `bulk_operation_annotatable_id`. -/
inductive HARIMediaUploadError where
  | missingCorrelation (bulk_operation_annotatable_id : Option String)
  | duplicateCorrelation (bulk_operation_annotatable_id : Option String)
deriving DecidableEq, Repr

/-- The per-media match count of `_update_hari_media_object_media_ids`:
the length of `filter(lambda x: x.bulk_operation_annotatable_id ==
media.bulk_operation_annotatable_id, response.results)`. -/
def matchCount (media : HARIMedia) (resp : BulkResponse) : Nat :=
  (resp.results.filter
    (fun x => x.bulk_operation_annotatable_id == media.bulk_operation_annotatable_id)).length

/-- Embeds `_update_hari_media_object_media_ids`: for each media of the
batch, filter the response's results for its correlation token; raise on zero
or on more than one match; on a unique match `r`, set `media_id = r.item_id`
on every media object of that media. -/
def _update_hari_media_object_media_ids (medias : List HARIMedia)
    (resp : BulkResponse) : Except HARIMediaUploadError (List HARIMedia) :=
  match medias with
  | [] => .ok []
  | media :: rest =>
    let filtered := resp.results.filter
      (fun x => x.bulk_operation_annotatable_id == media.bulk_operation_annotatable_id)
    match filtered with
    | [] => .error (.missingCorrelation media.bulk_operation_annotatable_id)
    | [r] =>
      match _update_hari_media_object_media_ids rest resp with
      | .error e => .error e
      | .ok rest' =>
        .ok ({ media with media_objects :=
                media.media_objects.map (fun mo => { mo with media_id := r.item_id }) }
             :: rest')
    | _ :: _ :: _ => .error (.duplicateCorrelation media.bulk_operation_annotatable_id)

/-- The unique server-assigned id the resolution propagates for a media:
the `item_id` of the head of the filtered response results, when present. -/
def serverIdFor (media : HARIMedia) (resp : BulkResponse) : Option String :=
  ((resp.results.filter
    (fun x => x.bulk_operation_annotatable_id == media.bulk_operation_annotatable_id)).head?).map
    (·.item_id)

/-- The observable actions of one `upload` call: the log line of the empty
case and the two kinds of network calls the pipeline makes, each carrying the
submitted batch. -/
inductive UploadEvent where
  | logNothingToUpload
  | createMedias (batch : List HARIMedia)
  | createMediaObjects (batch : List HARIMediaObject)
deriving DecidableEq, Repr

/-- Modelled from the spec: the injected service client (`HARIClient`), §6 of
the spec — the batch-create operations as response oracles, and the
`BULK_UPLOAD_LIMIT` constant (the spec's positive `maxBatchSize`). -/
structure HARIClientModel where
  BULK_UPLOAD_LIMIT : Nat
  create_medias : List HARIMedia → BulkResponse
  create_media_objects : List HARIMediaObject → BulkResponse

/-- Embeds `HARIUploadResults`: the merged bulk response per entity kind. -/
structure HARIUploadResults where
  medias : BulkResponse
  media_objects : BulkResponse
deriving DecidableEq, Repr

/-- Embeds `_upload_media_object_batch`: assign ids to the batch, then call
`client.create_media_objects`.  Returns the trace, the response and the
advanced token-supply index. -/
def _upload_media_object_batch (c : HARIClientModel)
    (media_objects_to_upload : List HARIMediaObject) (ctr : Nat) :
    List UploadEvent × BulkResponse × Nat :=
  let (batch', ctr') := assignMediaObjectIds media_objects_to_upload ctr
  ([.createMediaObjects batch'], c.create_media_objects batch', ctr')

/-- The batch loop of `_upload_media_objects_in_batches`, running
`_upload_media_object_batch` on each planned slice. -/
def uploadMediaObjectBatchesLoop (c : HARIClientModel)
    (batches : List (List HARIMediaObject)) (ctr : Nat) :
    List UploadEvent × List BulkResponse × Nat :=
  match batches with
  | [] => ([], [], ctr)
  | b :: rest =>
    let (evs, resp, ctr') := _upload_media_object_batch c b ctr
    let (evs', resps, ctr'') := uploadMediaObjectBatchesLoop c rest ctr'
    (evs ++ evs', resp :: resps, ctr'')

/-- Embeds `_upload_media_objects_in_batches`: slice the media objects by
`BULK_UPLOAD_LIMIT` and submit each slice. -/
def _upload_media_objects_in_batches (c : HARIClientModel)
    (media_objects : List HARIMediaObject) (ctr : Nat) :
    List UploadEvent × List BulkResponse × Nat :=
  uploadMediaObjectBatchesLoop c (planBatches c.BULK_UPLOAD_LIMIT media_objects) ctr

/-- Embeds `_upload_media_batch`: assign ids to the medias, call
`client.create_medias`, resolve the media objects' `media_id`s from the
response (an unresolved correlation aborts with the error), collect all media
objects of the batch and submit them in batches. -/
def _upload_media_batch (c : HARIClientModel) (medias_to_upload : List HARIMedia)
    (ctr : Nat) :
    List UploadEvent × Except HARIMediaUploadError (BulkResponse × List BulkResponse) × Nat :=
  let (batch', ctr') := assignMediaIds medias_to_upload ctr
  let resp := c.create_medias batch'
  match _update_hari_media_object_media_ids batch' resp with
  | .error e => ([.createMedias batch'], .error e, ctr')
  | .ok batch'' =>
    let all_media_objects := batch''.foldl (fun acc m => acc ++ m.media_objects) []
    let (evs, moResps, ctr'') := _upload_media_objects_in_batches c all_media_objects ctr'
    (.createMedias batch' :: evs, .ok (resp, moResps), ctr'')

/-- The media batch loop of `upload`: each planned media batch goes through
`_upload_media_batch`; a raised `HARIMediaUploadError` propagates and aborts
the remaining batches; otherwise the media response is appended and the
media-object responses are extended, as in the source. -/
def uploadBatchesLoop (c : HARIClientModel) (batches : List (List HARIMedia))
    (ctr : Nat) :
    List UploadEvent × Except HARIMediaUploadError (List BulkResponse × List BulkResponse) × Nat :=
  match batches with
  | [] => ([], .ok ([], []), ctr)
  | b :: rest =>
    match _upload_media_batch c b ctr with
    | (evs, .error e, ctr') => (evs, .error e, ctr')
    | (evs, .ok (mResp, moResps), ctr') =>
      match uploadBatchesLoop c rest ctr' with
      | (evs', .error e, ctr'') => (evs ++ evs', .error e, ctr'')
      | (evs', .ok (mResps, moResps'), ctr'') =>
        (evs ++ evs', .ok (mResp :: mResps, moResps ++ moResps'), ctr'')

/-- Embeds `HARIUploader.upload`: with no medias, log and return `None`;
otherwise submit the planned media batches (each followed by its own media
objects) and merge the collected responses per kind. -/
def upload (c : HARIClientModel) (medias : List HARIMedia) (ctr : Nat) :
    List UploadEvent × Except HARIMediaUploadError (Option HARIUploadResults) :=
  if medias.length = 0 then
    ([.logNothingToUpload], .ok none)
  else
    match uploadBatchesLoop c (planBatches c.BULK_UPLOAD_LIMIT medias) ctr with
    | (evs, .error e, _) => (evs, .error e)
    | (evs, .ok (mResps, moResps), _) =>
      (evs, .ok (some { medias := _merge_bulk_responses mResps
                        media_objects := _merge_bulk_responses moResps }))

/-- A concrete client for instantiations: batch size 1, `create_medias`
echoes every submitted media's correlation token back with a fixed server
id, `create_media_objects` answers with the default (empty) response. -/
def echoClient : HARIClientModel where
  BULK_UPLOAD_LIMIT := 1
  create_medias := fun ms =>
    { results := ms.map (fun m =>
        { bulk_operation_annotatable_id := m.bulk_operation_annotatable_id
          item_id := "srv-id" }) }
  create_media_objects := fun _ => {}

/-- A concrete client whose media response never contains any correlation
token (the server silently drops every item). -/
def droppingClient : HARIClientModel where
  BULK_UPLOAD_LIMIT := 1
  create_medias := fun _ => {}
  create_media_objects := fun _ => {}

/-- A media with one media object, for instantiations. -/
def sampleMedia1 : HARIMedia :=
  { back_reference := "media-1", media_objects := [{ back_reference := "object-1" }] }

/-- A second media with one media object, for instantiations. -/
def sampleMedia2 : HARIMedia :=
  { back_reference := "media-2", media_objects := [{ back_reference := "object-2" }] }

/-- The claim C2 phrases an ordering over the whole call: every media batch
is submitted before any media-object batch.  As a check on a trace: from the
first `createMediaObjects` event on, no `createMedias` event follows. -/
def allMediasBeforeMediaObjects (trace : List UploadEvent) : Bool :=
  (trace.dropWhile (fun ev =>
      match ev with
      | .createMediaObjects _ => false
      | _ => true)).all
    (fun ev =>
      match ev with
      | .createMedias _ => false
      | _ => true)

/-- A media with no media objects, for instantiations. -/
def plainMedia : HARIMedia := { back_reference := "plain-media" }

/-- A media whose correlation token is already set, for instantiations of the
dependency-resolution theorems. -/
def tokenedMedia : HARIMedia :=
  { back_reference := "media-1"
    media_objects := [{ back_reference := "object-1" }]
    bulk_operation_annotatable_id := some "token-1" }

/-- A batch response matching `tokenedMedia` with a unique outcome carrying a
non-empty server id, for instantiations. -/
def matchingResp : BulkResponse :=
  { results := [{ bulk_operation_annotatable_id := some "token-1", item_id := "server-1" }] }

/-- A concrete successful batch response, for instantiations. -/
def sampleResponseA : BulkResponse :=
  { status := .SUCCESS
    results := [{ bulk_operation_annotatable_id := some "token-a", item_id := "id-a" }]
    summary := { total := 1, successful := 1, failed := 0 } }

/-- A concrete failed batch response, for instantiations. -/
def sampleResponseB : BulkResponse :=
  { status := .FAILURE
    results := [{ bulk_operation_annotatable_id := some "token-b", item_id := "" }]
    summary := { total := 1, successful := 0, failed := 1 } }

/-- Batch-nonemptiness of one trace event: network events carry a non-empty
batch; the log event carries none. -/
def eventBatchesNonEmpty : UploadEvent → Prop
  | .logNothingToUpload => True
  | .createMedias batch => batch ≠ []
  | .createMediaObjects batch => batch ≠ []

/-! ### Helper lemmas -/

lemma uuid4_ne_empty (n : Nat) : uuid4 n ≠ "" := by
  intro h
  have h2 := congrArg String.data h
  simp [uuid4] at h2

lemma optTruthy_uuid4 (n : Nat) : optTruthy (some (uuid4 n)) = true := by
  simp only [optTruthy, Bool.not_eq_true']
  exact Bool.eq_false_iff.mpr fun h => uuid4_ne_empty n ((String.isEmpty_iff _).mp h)

lemma planBatchesGo_congr (limit : Nat) (hl : 1 ≤ limit) :
    ∀ (f1 f2 items : List α), items.length ≤ f1.length → items.length ≤ f2.length →
      planBatchesGo limit f1 items = planBatchesGo limit f2 items := by
  intro f1
  induction f1 with
  | nil =>
    intro f2 items h1 h2
    have hi : items = [] := List.length_eq_zero.mp (Nat.le_zero.mp h1)
    subst hi
    cases f2 <;> rfl
  | cons f f1' ih =>
    intro f2 items h1 h2
    cases items with
    | nil => cases f2 <;> rfl
    | cons a rest =>
      cases f2 with
      | nil => simp at h2
      | cons g f2' =>
        simp only [List.length_cons] at h1 h2
        simp only [planBatchesGo]
        congr 1
        apply ih f2' ((a :: rest).drop limit) <;> simp <;> omega

lemma planBatches_nil (limit : Nat) : planBatches limit ([] : List α) = [] := rfl

lemma planBatches_cons (limit : Nat) (items : List α) (hl : 1 ≤ limit)
    (hne : items ≠ []) :
    planBatches limit items
      = items.take limit :: planBatches limit (items.drop limit) := by
  cases items with
  | nil => exact absurd rfl hne
  | cons a rest =>
    simp only [planBatches, planBatchesGo]
    congr 1
    apply planBatchesGo_congr limit hl rest ((a :: rest).drop limit)
      ((a :: rest).drop limit) <;> (simp; try omega)

lemma planBatches_join (limit : Nat) (h : 1 ≤ limit) :
    ∀ items : List α, (planBatches limit items).flatten = items
  | [] => by simp [planBatches_nil]
  | a :: rest => by
    rw [planBatches_cons limit (a :: rest) h (by simp)]
    simp only [List.flatten_cons]
    rw [planBatches_join limit h ((a :: rest).drop limit)]
    exact List.take_append_drop _ _
termination_by items => items.length
decreasing_by simp; omega

lemma planBatches_length_le (limit : Nat) (h : 1 ≤ limit) :
    ∀ items : List α, ∀ b ∈ planBatches limit items, b.length ≤ limit
  | [] => by simp [planBatches_nil]
  | a :: rest => by
    rw [planBatches_cons limit (a :: rest) h (by simp)]
    intro b hb
    rcases List.mem_cons.mp hb with h1 | h2
    · subst h1; exact List.length_take_le _ _
    · exact planBatches_length_le limit h ((a :: rest).drop limit) b h2
termination_by items => items.length
decreasing_by simp; omega

lemma planBatches_ne_nil (limit : Nat) (h : 1 ≤ limit) :
    ∀ items : List α, ∀ b ∈ planBatches limit items, b ≠ []
  | [] => by simp [planBatches_nil]
  | a :: rest => by
    rw [planBatches_cons limit (a :: rest) h (by simp)]
    intro b hb
    rcases List.mem_cons.mp hb with h1 | h2
    · subst h1; simp; omega
    · exact planBatches_ne_nil limit h ((a :: rest).drop limit) b h2
termination_by items => items.length
decreasing_by simp; omega

lemma planBatches_subset (limit : Nat) (h : 1 ≤ limit) :
    ∀ items : List α, ∀ b ∈ planBatches limit items, ∀ x ∈ b, x ∈ items
  | [] => by simp [planBatches_nil]
  | a :: rest => by
    rw [planBatches_cons limit (a :: rest) h (by simp)]
    intro b hb x hx
    rcases List.mem_cons.mp hb with h1 | h2
    · subst h1; exact List.take_subset _ _ hx
    · exact List.drop_subset _ _
        (planBatches_subset limit h ((a :: rest).drop limit) b h2 x hx)
termination_by items => items.length
decreasing_by simp; omega

lemma foldl_append_results (args : List BulkResponse)
    (acc : List AnnotatableCreateResponse) :
    args.foldl (fun acc r => acc ++ r.results) acc
      = acc ++ (args.map (·.results)).flatten := by
  induction args generalizing acc with
  | nil => simp
  | cons a rest ih => simp [ih, List.append_assoc]

lemma foldl_add_total (args : List BulkResponse) (n : Nat) :
    args.foldl (fun acc r => acc + r.summary.total) n
      = n + (args.map (·.summary.total)).sum := by
  induction args generalizing n with
  | nil => simp
  | cons a rest ih => simp [ih]; omega

lemma foldl_add_successful (args : List BulkResponse) (n : Nat) :
    args.foldl (fun acc r => acc + r.summary.successful) n
      = n + (args.map (·.summary.successful)).sum := by
  induction args generalizing n with
  | nil => simp
  | cons a rest ih => simp [ih]; omega

lemma foldl_add_failed (args : List BulkResponse) (n : Nat) :
    args.foldl (fun acc r => acc + r.summary.failed) n
      = n + (args.map (·.summary.failed)).sum := by
  induction args generalizing n with
  | nil => simp
  | cons a rest ih => simp [ih]; omega

/-! ### Claim theorems -/

/-- C1: the claim says that merging inputs whose statuses mix only failure
and partial success yields "failure".  The code disagrees: the `elif`
condition `SUCCESS or PARTIAL_SUCCESS in statuses` is always truthy (its
first operand is a bare enum member), so the `else` branch assigning FAILURE
is unreachable and the merge of a FAILURE input with a PARTIAL_SUCCESS input
evaluates to PARTIAL_SUCCESS. -/
theorem merge_failure_partial_evaluates_to_partial :
    (_merge_bulk_responses
      [{ status := .FAILURE }, { status := .PARTIAL_SUCCESS }]).status
      = BulkOperationStatusEnum.PARTIAL_SUCCESS := by rfl

/-- C5: for every item sequence and maximum batch size ≥ 1, batch planning
yields contiguous slices in original order whose concatenation is exactly
the original sequence, each slice of length at most the maximum batch
size. -/
theorem planBatches_slices_spec {α : Type} (limit : Nat) (items : List α)
    (h : 1 ≤ limit) :
    (planBatches limit items).flatten = items ∧
    ∀ b ∈ planBatches limit items, b.length ≤ limit :=
  ⟨planBatches_join limit h items, planBatches_length_le limit h items⟩

/-- Witness for C5: 3 items with batch size 2 (the planned slices have
lengths [2, 1]). -/
theorem planBatches_slices_spec_witness :
    1 ≤ 2 ∧
    ((planBatches 2 [10, 20, 30]).flatten = [10, 20, 30] ∧
      ∀ b ∈ planBatches 2 [10, 20, 30], b.length ≤ 2) :=
  ⟨by decide, planBatches_slices_spec 2 [10, 20, 30] (by decide)⟩

/-- C6: the merge of zero responses is the empty summary with status
SUCCESS and zero counts; the merge of one response is that response
unchanged; the merge of two or more responses concatenates the per-item
results in submission order and sums the three summary counts. -/
theorem merge_zero_one_many :
    _merge_bulk_responses [] =
      { status := .SUCCESS, results := [], summary := { total := 0, successful := 0, failed := 0 } } ∧
    (∀ x : BulkResponse, _merge_bulk_responses [x] = x) ∧
    (∀ args : List BulkResponse, 2 ≤ args.length →
      (_merge_bulk_responses args).results = (args.map (·.results)).flatten ∧
      (_merge_bulk_responses args).summary.total = (args.map (·.summary.total)).sum ∧
      (_merge_bulk_responses args).summary.successful = (args.map (·.summary.successful)).sum ∧
      (_merge_bulk_responses args).summary.failed = (args.map (·.summary.failed)).sum) := by
  refine ⟨rfl, fun x => rfl, ?_⟩
  intro args h
  match args with
  | [] => simp at h
  | [x] => simp at h
  | a :: b :: rest =>
    simp only [_merge_bulk_responses]
    refine ⟨?_, ?_, ?_, ?_⟩
    · simpa using foldl_append_results (a :: b :: rest) []
    · simpa using foldl_add_total (a :: b :: rest) 0
    · simpa using foldl_add_successful (a :: b :: rest) 0
    · simpa using foldl_add_failed (a :: b :: rest) 0

/-- Witness for C6: the 2-input case at concrete responses. -/
theorem merge_zero_one_many_witness :
    2 ≤ ([sampleResponseA, sampleResponseB] : List BulkResponse).length ∧
    ((_merge_bulk_responses [sampleResponseA, sampleResponseB]).results
        = ([sampleResponseA, sampleResponseB].map (·.results)).flatten ∧
      (_merge_bulk_responses [sampleResponseA, sampleResponseB]).summary.total
        = ([sampleResponseA, sampleResponseB].map (·.summary.total)).sum ∧
      (_merge_bulk_responses [sampleResponseA, sampleResponseB]).summary.successful
        = ([sampleResponseA, sampleResponseB].map (·.summary.successful)).sum ∧
      (_merge_bulk_responses [sampleResponseA, sampleResponseB]).summary.failed
        = ([sampleResponseA, sampleResponseB].map (·.summary.failed)).sum) :=
  ⟨by decide, merge_zero_one_many.2.2 [sampleResponseA, sampleResponseB] (by decide)⟩

/-- C7: correlation-token assignment sets a fresh token exactly when the
token is unset (and leaves a set token alone), and it is idempotent: a
second application, with any later supply index, changes nothing — for
medias and for media objects alike. -/
theorem assign_token_iff_unset_and_idempotent (m : HARIMedia)
    (mo : HARIMediaObject) (ctr ctr' : Nat) :
    ((setIdMedia m ctr).1 =
      if optTruthy m.bulk_operation_annotatable_id = true then m
      else { m with bulk_operation_annotatable_id := some (uuid4 ctr) }) ∧
    (setIdMedia (setIdMedia m ctr).1 ctr').1 = (setIdMedia m ctr).1 ∧
    ((setIdMediaObject mo ctr).1 =
      if optTruthy mo.bulk_operation_annotatable_id = true then mo
      else { mo with bulk_operation_annotatable_id := some (uuid4 ctr) }) ∧
    (setIdMediaObject (setIdMediaObject mo ctr).1 ctr').1
      = (setIdMediaObject mo ctr).1 := by
  refine ⟨?_, ?_, ?_, ?_⟩
  · by_cases h : optTruthy m.bulk_operation_annotatable_id = true
    · simp [setIdMedia, _set_bulk_operation_annotatable_id, h]
    · simp [setIdMedia, _set_bulk_operation_annotatable_id, h]
  · by_cases h : optTruthy m.bulk_operation_annotatable_id = true
    · simp [setIdMedia, _set_bulk_operation_annotatable_id, h]
    · simp [setIdMedia, _set_bulk_operation_annotatable_id, h, optTruthy_uuid4]
  · by_cases h : optTruthy mo.bulk_operation_annotatable_id = true
    · simp [setIdMediaObject, _set_bulk_operation_annotatable_id, h]
    · simp [setIdMediaObject, _set_bulk_operation_annotatable_id, h]
  · by_cases h : optTruthy mo.bulk_operation_annotatable_id = true
    · simp [setIdMediaObject, _set_bulk_operation_annotatable_id, h]
    · simp [setIdMediaObject, _set_bulk_operation_annotatable_id, h, optTruthy_uuid4]

/-- C8: constructing a `HARIMediaObject` with the correlation token or the
parent-media field pre-set (truthy), or a `HARIMedia` with the correlation
token pre-set, fails with the reserved-field `ValueError`; construction with
those fields unset succeeds and leaves them unset. -/
theorem construction_rejects_reserved_fields (br media_id : String)
    (b : Option String) (mos : List HARIMediaObject) :
    (mkHARIMediaObject br media_id b = .error fieldMustNotBeSetMsg
      ↔ ¬(media_id = "" ∧ optTruthy b = false)) ∧
    mkHARIMediaObject br "" none =
      .ok { back_reference := br, media_id := "", bulk_operation_annotatable_id := none } ∧
    (mkHARIMedia br mos b = .error fieldMustNotBeSetMsg ↔ optTruthy b = true) ∧
    mkHARIMedia br mos none =
      .ok { back_reference := br, media_objects := mos, bulk_operation_annotatable_id := none } := by
  refine ⟨?_, rfl, ?_, rfl⟩
  · simp only [mkHARIMediaObject]
    split_ifs with h1 h2
    · refine iff_of_true rfl ?_
      rintro ⟨he, -⟩
      subst he
      exact absurd h1 (by decide)
    · refine iff_of_true rfl ?_
      rintro ⟨-, hb⟩
      rw [h2] at hb
      simp at hb
    · refine iff_of_false (by simp) ?_
      intro hn
      refine hn ⟨(String.isEmpty_iff _).mp ?_, ?_⟩
      · revert h1; cases media_id.isEmpty <;> simp
      · revert h2; cases optTruthy b <;> simp
  · simp only [mkHARIMedia]
    split_ifs with h1
    · exact iff_of_true rfl h1
    · exact iff_of_false (by simp) h1

/-- C9: with an empty pending media set, `upload` only logs that there is
nothing to upload — the trace contains no network event — and returns the
empty result `none` rather than an upload summary. -/
theorem upload_empty_pending_set (c : HARIClientModel) (ctr : Nat) :
    upload c [] ctr = ([.logNothingToUpload], .ok none) ∧
    ∀ ev ∈ (upload c [] ctr).1,
      (∀ batch, ev ≠ .createMedias batch) ∧
      (∀ batch, ev ≠ .createMediaObjects batch) := by
  refine ⟨rfl, ?_⟩
  intro ev hev
  have hev' : ev = .logNothingToUpload := by
    simpa [upload] using hev
  subst hev'
  exact ⟨fun batch h => UploadEvent.noConfusion h,
    fun batch h => UploadEvent.noConfusion h⟩

/-! ### Dependency-resolution lemmas -/

lemma resolution_ok_iff (medias : List HARIMedia) (resp : BulkResponse) :
    (∃ l, _update_hari_media_object_media_ids medias resp = .ok l)
      ↔ ∀ m ∈ medias, matchCount m resp = 1 := by
  induction medias with
  | nil => simp [_update_hari_media_object_media_ids]
  | cons m rest ih =>
    rw [_update_hari_media_object_media_ids]
    cases hf : resp.results.filter
        (fun x => x.bulk_operation_annotatable_id == m.bulk_operation_annotatable_id) with
    | nil =>
      simp only [hf]
      constructor
      · rintro ⟨l, hl⟩; cases hl
      · intro hall
        have := hall m (by simp)
        rw [matchCount, hf] at this
        simp at this
    | cons r rest' =>
      cases rest' with
      | nil =>
        simp only [hf]
        constructor
        · rintro ⟨l, hl⟩
          intro m' hm'
          rcases List.mem_cons.mp hm' with h1 | h2
          · subst h1; rw [matchCount, hf]; rfl
          · cases hrec : _update_hari_media_object_media_ids rest resp with
            | error e => rw [hrec] at hl; cases hl
            | ok l' => exact (ih.mp ⟨l', hrec⟩) m' h2
        · intro hall
          obtain ⟨l', hl'⟩ := ih.mpr (fun m' hm' => hall m' (by simp [hm']))
          rw [hl']
          exact ⟨_, rfl⟩
      | cons r2 rest'' =>
        simp only [hf]
        constructor
        · rintro ⟨l, hl⟩; cases hl
        · intro hall
          have := hall m (by simp)
          rw [matchCount, hf] at this
          simp at this

lemma resolution_error_missing (medias : List HARIMedia) (resp : BulkResponse)
    (t : Option String) :
    _update_hari_media_object_media_ids medias resp = .error (.missingCorrelation t) →
    ∃ m ∈ medias, m.bulk_operation_annotatable_id = t ∧ matchCount m resp = 0 := by
  induction medias with
  | nil => intro h; cases h
  | cons m rest ih =>
    rw [_update_hari_media_object_media_ids]
    cases hf : resp.results.filter
        (fun x => x.bulk_operation_annotatable_id == m.bulk_operation_annotatable_id) with
    | nil =>
      simp only [hf]
      intro h
      injection h with h'
      injection h' with h''
      exact ⟨m, by simp, h''.symm ▸ rfl, by rw [matchCount, hf]; rfl⟩
    | cons r rest' =>
      cases rest' with
      | nil =>
        simp only [hf]
        cases hrec : _update_hari_media_object_media_ids rest resp with
        | error e =>
          intro h
          injection h with h'
          obtain ⟨m', hm', hmt, hmc⟩ := ih (hrec.trans (by rw [h']))
          exact ⟨m', by simp [hm'], hmt, hmc⟩
        | ok l' => intro h; cases h
      | cons r2 rest'' =>
        simp only [hf]
        intro h
        injection h with h'
        cases h'

lemma resolution_error_duplicate (medias : List HARIMedia) (resp : BulkResponse)
    (t : Option String) :
    _update_hari_media_object_media_ids medias resp = .error (.duplicateCorrelation t) →
    ∃ m ∈ medias, m.bulk_operation_annotatable_id = t ∧ 1 < matchCount m resp := by
  induction medias with
  | nil => intro h; cases h
  | cons m rest ih =>
    rw [_update_hari_media_object_media_ids]
    cases hf : resp.results.filter
        (fun x => x.bulk_operation_annotatable_id == m.bulk_operation_annotatable_id) with
    | nil =>
      simp only [hf]
      intro h
      injection h with h'
      cases h'
    | cons r rest' =>
      cases rest' with
      | nil =>
        simp only [hf]
        cases hrec : _update_hari_media_object_media_ids rest resp with
        | error e =>
          intro h
          injection h with h'
          obtain ⟨m', hm', hmt, hmc⟩ := ih (hrec.trans (by rw [h']))
          exact ⟨m', by simp [hm'], hmt, hmc⟩
        | ok l' => intro h; cases h
      | cons r2 rest'' =>
        simp only [hf]
        intro h
        injection h with h'
        injection h' with h''
        refine ⟨m, by simp, h''.symm ▸ rfl, ?_⟩
        rw [matchCount, hf]
        simp

/-! ### Upload-trace lemmas -/

lemma assignMediaIds_length (ms : List HARIMedia) (ctr : Nat) :
    (assignMediaIds ms ctr).1.length = ms.length := by
  induction ms generalizing ctr with
  | nil => rfl
  | cons m rest ih => simp [assignMediaIds, ih]

lemma assignMediaObjectIds_length (ms : List HARIMediaObject) (ctr : Nat) :
    (assignMediaObjectIds ms ctr).1.length = ms.length := by
  induction ms generalizing ctr with
  | nil => rfl
  | cons mo rest ih => simp [assignMediaObjectIds, ih]

lemma mo_loop_trace (c : HARIClientModel) (batches : List (List HARIMediaObject))
    (ctr : Nat) (hb : ∀ b ∈ batches, b ≠ []) :
    ∀ ev ∈ (uploadMediaObjectBatchesLoop c batches ctr).1,
      ∃ b', b' ≠ [] ∧ ev = .createMediaObjects b' := by
  induction batches generalizing ctr with
  | nil => simp [uploadMediaObjectBatchesLoop]
  | cons b rest ih =>
    intro ev hev
    have hev' : ev = UploadEvent.createMediaObjects (assignMediaObjectIds b ctr).1 ∨
        ev ∈ (uploadMediaObjectBatchesLoop c rest (assignMediaObjectIds b ctr).2).1 := by
      simpa [uploadMediaObjectBatchesLoop, _upload_media_object_batch] using hev
    rcases hev' with rfl | h2
    · refine ⟨(assignMediaObjectIds b ctr).1, ?_, rfl⟩
      intro hnil
      have := assignMediaObjectIds_length b ctr
      rw [hnil] at this
      exact hb b (by simp) (List.length_eq_zero.mp this.symm)
    · exact ih _ (fun b' hb' => hb b' (by simp [hb'])) ev h2

lemma upload_media_batch_trace (c : HARIClientModel) (b : List HARIMedia)
    (ctr : Nat) (hl : 1 ≤ c.BULK_UPLOAD_LIMIT) :
    ∃ evs, (_upload_media_batch c b ctr).1
      = .createMedias (assignMediaIds b ctr).1 :: evs ∧
      ∀ ev ∈ evs, ∃ batch, batch ≠ [] ∧ ev = .createMediaObjects batch := by
  rw [_upload_media_batch]
  cases hu : _update_hari_media_object_media_ids (assignMediaIds b ctr).1
      (c.create_medias (assignMediaIds b ctr).1) with
  | error e => exact ⟨[], by simp [hu], by simp⟩
  | ok batch'' =>
    refine ⟨(_upload_media_objects_in_batches c
        (batch''.foldl (fun acc m => acc ++ m.media_objects) []) (assignMediaIds b ctr).2).1,
      by simp [hu], ?_⟩
    intro ev hev
    exact mo_loop_trace c _ _ (planBatches_ne_nil c.BULK_UPLOAD_LIMIT hl _) ev hev

lemma upload_batches_loop_events (c : HARIClientModel)
    (batches : List (List HARIMedia)) (ctr : Nat)
    (hl : 1 ≤ c.BULK_UPLOAD_LIMIT) (hb : ∀ b ∈ batches, b ≠ []) :
    ∀ ev ∈ (uploadBatchesLoop c batches ctr).1,
      (∃ b', b' ≠ [] ∧ ev = .createMedias b') ∨
      (∃ b', b' ≠ [] ∧ ev = .createMediaObjects b') := by
  induction batches generalizing ctr with
  | nil => simp [uploadBatchesLoop]
  | cons b rest ih =>
    intro ev hev
    obtain ⟨evs, hevs, hmo⟩ := upload_media_batch_trace c b ctr hl
    have hbatch : (assignMediaIds b ctr).1 ≠ [] := by
      intro hnil
      have := assignMediaIds_length b ctr
      rw [hnil] at this
      exact hb b (by simp) (List.length_eq_zero.mp this.symm)
    have hin : ∀ ev ∈ (_upload_media_batch c b ctr).1,
        (∃ b', b' ≠ [] ∧ ev = .createMedias b') ∨
        (∃ b', b' ≠ [] ∧ ev = .createMediaObjects b') := by
      intro ev' hev'
      rw [hevs] at hev'
      rcases List.mem_cons.mp hev' with rfl | hm
      · exact Or.inl ⟨_, hbatch, rfl⟩
      · exact Or.inr (hmo ev' hm)
    rw [uploadBatchesLoop] at hev
    rcases hub : _upload_media_batch c b ctr with ⟨evs0, r, ctr'⟩
    rw [hub] at hev hin
    cases r with
    | error e =>
      simp only at hev
      exact hin ev hev
    | ok pr =>
      rcases pr with ⟨mResp, moResps⟩
      simp only at hev
      rcases hrec : uploadBatchesLoop c rest ctr' with ⟨evs1, r1, ctr''⟩
      rw [hrec] at hev
      have hev2 : ev ∈ evs0 ++ evs1 := by
        cases r1 with
        | error e => simpa using hev
        | ok pp => rcases pp with ⟨a1, a2⟩; simpa using hev
      rcases List.mem_append.mp hev2 with h1 | h2
      · exact hin ev h1
      · have := ih ctr' (fun b' hb' => hb b' (by simp [hb']))
        rw [hrec] at this
        exact this ev h2

lemma upload_trace_eq (c : HARIClientModel) (medias : List HARIMedia) (ctr : Nat)
    (hne : medias.length ≠ 0) :
    (upload c medias ctr).1
      = (uploadBatchesLoop c (planBatches c.BULK_UPLOAD_LIMIT medias) ctr).1 := by
  rw [upload, if_neg hne]
  rcases h : uploadBatchesLoop c (planBatches c.BULK_UPLOAD_LIMIT medias) ctr with ⟨evs, r, ctr'⟩
  cases r with
  | error e => simp
  | ok pr => rcases pr with ⟨a, bb⟩; simp

lemma upload_media_batch_error_eq (c : HARIClientModel) (b : List HARIMedia)
    (ctr : Nat) (e : HARIMediaUploadError)
    (h : _update_hari_media_object_media_ids (assignMediaIds b ctr).1
        (c.create_medias (assignMediaIds b ctr).1) = .error e) :
    _upload_media_batch c b ctr
      = ([.createMedias (assignMediaIds b ctr).1], .error e, (assignMediaIds b ctr).2) := by
  rw [_upload_media_batch]
  simp [h]

lemma upload_first_batch_error_trace (c : HARIClientModel) (medias : List HARIMedia)
    (ctr : Nat) (e : HARIMediaUploadError)
    (hne : medias ≠ []) (hl : 1 ≤ c.BULK_UPLOAD_LIMIT)
    (h : _update_hari_media_object_media_ids
        (assignMediaIds (medias.take c.BULK_UPLOAD_LIMIT) ctr).1
        (c.create_medias (assignMediaIds (medias.take c.BULK_UPLOAD_LIMIT) ctr).1) = .error e) :
    upload c medias ctr
      = ([.createMedias (assignMediaIds (medias.take c.BULK_UPLOAD_LIMIT) ctr).1], .error e) := by
  rw [upload, if_neg (by simpa using hne), planBatches_cons _ _ hl hne, uploadBatchesLoop,
    upload_media_batch_error_eq c _ ctr e h]

lemma upload_trace_head (c : HARIClientModel) (medias : List HARIMedia) (ctr : Nat)
    (hne : medias ≠ []) (hl : 1 ≤ c.BULK_UPLOAD_LIMIT) :
    ∃ rest, (upload c medias ctr).1
      = .createMedias (assignMediaIds (medias.take c.BULK_UPLOAD_LIMIT) ctr).1 :: rest := by
  rw [upload_trace_eq c medias ctr (by simpa using hne), planBatches_cons _ _ hl hne,
    uploadBatchesLoop]
  obtain ⟨evs, hevs, -⟩ := upload_media_batch_trace c (medias.take c.BULK_UPLOAD_LIMIT) ctr hl
  rcases hub : _upload_media_batch c (medias.take c.BULK_UPLOAD_LIMIT) ctr with ⟨evs0, r, ctr'⟩
  rw [hub] at hevs
  simp only at hevs
  subst hevs
  cases r with
  | error e => exact ⟨evs, rfl⟩
  | ok pr =>
    rcases pr with ⟨mResp, moResps⟩
    simp only
    rcases hrec : uploadBatchesLoop c (planBatches c.BULK_UPLOAD_LIMIT
        (medias.drop c.BULK_UPLOAD_LIMIT)) ctr' with ⟨evs1, r1, ctr''⟩
    cases r1 with
    | error e => exact ⟨evs ++ evs1, by simp⟩
    | ok pp => rcases pp with ⟨a1, a2⟩; exact ⟨evs ++ evs1, by simp⟩

/-! ### Lemmas about medias without media objects -/

lemma assignMediaIds_media_objects (ms : List HARIMedia) (ctr : Nat) :
    ∀ m' ∈ (assignMediaIds ms ctr).1, ∃ m ∈ ms, m'.media_objects = m.media_objects := by
  induction ms generalizing ctr with
  | nil => simp [assignMediaIds]
  | cons m rest ih =>
    intro m' hm'
    have hm'' : m' = (setIdMedia m ctr).1 ∨
        m' ∈ (assignMediaIds rest (setIdMedia m ctr).2).1 := by
      simpa [assignMediaIds] using hm'
    rcases hm'' with rfl | h
    · exact ⟨m, by simp, rfl⟩
    · obtain ⟨m0, hm0, he⟩ := ih _ m' h
      exact ⟨m0, by simp [hm0], he⟩

lemma update_preserves_no_media_objects (medias : List HARIMedia)
    (resp : BulkResponse) :
    ∀ l, _update_hari_media_object_media_ids medias resp = .ok l →
      (∀ m ∈ medias, m.media_objects = []) → ∀ m' ∈ l, m'.media_objects = [] := by
  induction medias with
  | nil =>
    intro l h hm
    injection h with h'
    subst h'
    simp
  | cons m rest ih =>
    intro l h hm
    rw [_update_hari_media_object_media_ids] at h
    cases hf : resp.results.filter
        (fun x => x.bulk_operation_annotatable_id == m.bulk_operation_annotatable_id) with
    | nil => rw [hf] at h; cases h
    | cons r rest' =>
      cases rest' with
      | nil =>
        rw [hf] at h
        cases hrec : _update_hari_media_object_media_ids rest resp with
        | error e => rw [hrec] at h; cases h
        | ok l' =>
          rw [hrec] at h
          injection h with h'
          subst h'
          intro m' hm'
          rcases List.mem_cons.mp hm' with rfl | hh
          · simp [hm m (by simp)]
          · exact ih l' hrec (fun m0 h0 => hm m0 (by simp [h0])) m' hh
      | cons r2 rest'' => rw [hf] at h; cases h

lemma foldl_media_objects_empty (l : List HARIMedia)
    (acc : List HARIMediaObject) (h : ∀ m ∈ l, m.media_objects = []) :
    l.foldl (fun acc m => acc ++ m.media_objects) acc = acc := by
  induction l generalizing acc with
  | nil => rfl
  | cons m rest ih =>
    simp only [List.foldl_cons, h m (by simp), List.append_nil]
    exact ih acc (fun m0 h0 => h m0 (by simp [h0]))

lemma upload_media_batch_no_mo_events (c : HARIClientModel) (b : List HARIMedia)
    (ctr : Nat) (hmo : ∀ m ∈ b, m.media_objects = []) :
    ∀ ev ∈ (_upload_media_batch c b ctr).1,
      ∀ batch, ev ≠ .createMediaObjects batch := by
  have hmo' : ∀ m' ∈ (assignMediaIds b ctr).1, m'.media_objects = [] := by
    intro m' hm'
    obtain ⟨m0, hm0, he⟩ := assignMediaIds_media_objects b ctr m' hm'
    rw [he]
    exact hmo m0 hm0
  rw [_upload_media_batch]
  cases hu : _update_hari_media_object_media_ids (assignMediaIds b ctr).1
      (c.create_medias (assignMediaIds b ctr).1) with
  | error e =>
    intro ev hev
    have : ev = .createMedias (assignMediaIds b ctr).1 := by simpa [hu] using hev
    subst this
    exact fun batch h => UploadEvent.noConfusion h
  | ok batch'' =>
    have hempty : ∀ m' ∈ batch'', m'.media_objects = [] :=
      update_preserves_no_media_objects _ _ batch'' hu hmo'
    have hfold : batch''.foldl (fun acc m => acc ++ m.media_objects) [] = [] :=
      foldl_media_objects_empty batch'' [] hempty
    intro ev hev
    have : ev = .createMedias (assignMediaIds b ctr).1 := by
      simpa [hu, hfold, _upload_media_objects_in_batches, planBatches, planBatchesGo,
        uploadMediaObjectBatchesLoop] using hev
    subst this
    exact fun batch h => UploadEvent.noConfusion h

lemma loop_no_mo_events (c : HARIClientModel) (batches : List (List HARIMedia))
    (ctr : Nat) (hmo : ∀ b ∈ batches, ∀ m ∈ b, m.media_objects = []) :
    ∀ ev ∈ (uploadBatchesLoop c batches ctr).1,
      ∀ batch, ev ≠ .createMediaObjects batch := by
  induction batches generalizing ctr with
  | nil => simp [uploadBatchesLoop]
  | cons b rest ih =>
    intro ev hev
    have hin := upload_media_batch_no_mo_events c b ctr (hmo b (by simp))
    rw [uploadBatchesLoop] at hev
    rcases hub : _upload_media_batch c b ctr with ⟨evs0, r, ctr'⟩
    rw [hub] at hev hin
    cases r with
    | error e =>
      simp only at hev
      exact hin ev hev
    | ok pr =>
      rcases pr with ⟨mResp, moResps⟩
      simp only at hev
      rcases hrec : uploadBatchesLoop c rest ctr' with ⟨evs1, r1, ctr''⟩
      rw [hrec] at hev
      have hev2 : ev ∈ evs0 ++ evs1 := by
        cases r1 with
        | error e => simpa using hev
        | ok pp => rcases pp with ⟨a1, a2⟩; simpa using hev
      rcases List.mem_append.mp hev2 with h1 | h2
      · exact hin ev h1
      · have := ih ctr' (fun b' hb' m0 h0 => hmo b' (by simp [hb']) m0 h0)
        rw [hrec] at this
        exact this ev h2

/-! ### Remaining claim theorems -/

/-- C2 counterexample: with a batch size of 1, two medias that both carry a
media object, and a client echoing every correlation token back, the upload
call submits the media-object batch of the first media batch before the
second media batch — so it is not the case that every media batch is
submitted before any media-object batch. -/
theorem upload_interleaves_media_and_media_object_batches :
    allMediasBeforeMediaObjects
      (upload echoClient [sampleMedia1, sampleMedia2] 0).1 = false := by rfl

/-- C2 (amended): during one upload call the first submitted batch is always
a media batch, but each media batch is followed by the media-object batches
of its own medias, so later media batches may come after earlier media-object
batches; and when the response of the first media batch omits the correlation
token of a submitted media, the call fails with that error and no
media-object batch is attempted at all. -/
theorem upload_media_stage_ordering (c : HARIClientModel)
    (medias : List HARIMedia) (ctr : Nat) (e : HARIMediaUploadError)
    (hne : medias ≠ []) (hl : 1 ≤ c.BULK_UPLOAD_LIMIT) :
    (∃ batch, batch ≠ [] ∧
      (upload c medias ctr).1.head? = some (.createMedias batch)) ∧
    (_update_hari_media_object_media_ids
        (assignMediaIds (medias.take c.BULK_UPLOAD_LIMIT) ctr).1
        (c.create_medias (assignMediaIds (medias.take c.BULK_UPLOAD_LIMIT) ctr).1)
        = .error e →
      (upload c medias ctr).2 = .error e ∧
      ∀ ev ∈ (upload c medias ctr).1, ∀ batch, ev ≠ .createMediaObjects batch) := by
  constructor
  · obtain ⟨rest, hrest⟩ := upload_trace_head c medias ctr hne hl
    refine ⟨(assignMediaIds (medias.take c.BULK_UPLOAD_LIMIT) ctr).1, ?_, by rw [hrest]; rfl⟩
    intro hnil
    have hlen := assignMediaIds_length (medias.take c.BULK_UPLOAD_LIMIT) ctr
    rw [hnil] at hlen
    have : medias.take c.BULK_UPLOAD_LIMIT = [] := List.length_eq_zero.mp hlen.symm
    rcases List.take_eq_nil_iff.mp this with h0 | h0
    · omega
    · exact hne h0
  · intro h
    have heq := upload_first_batch_error_trace c medias ctr e hne hl h
    rw [heq]
    refine ⟨rfl, ?_⟩
    intro ev hev
    have : ev = .createMedias (assignMediaIds (medias.take c.BULK_UPLOAD_LIMIT) ctr).1 := by
      simpa using hev
    subst this
    exact fun batch hb => UploadEvent.noConfusion hb

/-- Witness for C2: a first media batch whose response omits every token
fails the call with the missing-correlation error, with no media-object
batch attempted, and the single submitted batch is a media batch. -/
theorem upload_media_stage_ordering_witness :
    (∃ batch, batch ≠ [] ∧
      (upload droppingClient [sampleMedia1] 0).1.head? = some (.createMedias batch)) ∧
    ((upload droppingClient [sampleMedia1] 0).2
        = .error (.missingCorrelation (some (uuid4 0))) ∧
      ∀ ev ∈ (upload droppingClient [sampleMedia1] 0).1,
        ∀ batch, ev ≠ .createMediaObjects batch) := by
  have h := upload_media_stage_ordering droppingClient [sampleMedia1] 0
    (.missingCorrelation (some (uuid4 0))) (by decide) (by decide)
  exact ⟨h.1, h.2 (by rfl)⟩

/-- C3: dependency resolution succeeds exactly when every parent media of the
batch matches exactly one per-item outcome of the batch response; a
missing-correlation error names a parent whose token matches zero outcomes, a
duplicate-correlation error names a parent whose token matches more than one
outcome; and a resolution error on the first media batch aborts the upload
call, surfacing that very error to the caller. -/
theorem resolution_error_contract (medias : List HARIMedia)
    (resp : BulkResponse) (c : HARIClientModel) (ctr : Nat)
    (e : HARIMediaUploadError) :
    ((∃ l, _update_hari_media_object_media_ids medias resp = .ok l)
      ↔ ∀ m ∈ medias, matchCount m resp = 1) ∧
    (∀ t, _update_hari_media_object_media_ids medias resp
        = .error (.missingCorrelation t) →
      ∃ m ∈ medias, m.bulk_operation_annotatable_id = t ∧ matchCount m resp = 0) ∧
    (∀ t, _update_hari_media_object_media_ids medias resp
        = .error (.duplicateCorrelation t) →
      ∃ m ∈ medias, m.bulk_operation_annotatable_id = t ∧ 1 < matchCount m resp) ∧
    (medias ≠ [] → 1 ≤ c.BULK_UPLOAD_LIMIT →
      _update_hari_media_object_media_ids
        (assignMediaIds (medias.take c.BULK_UPLOAD_LIMIT) ctr).1
        (c.create_medias (assignMediaIds (medias.take c.BULK_UPLOAD_LIMIT) ctr).1)
        = .error e →
      (upload c medias ctr).2 = .error e) := by
  refine ⟨resolution_ok_iff medias resp,
    fun t => resolution_error_missing medias resp t,
    fun t => resolution_error_duplicate medias resp t,
    fun hne hl h => ?_⟩
  rw [upload_first_batch_error_trace c medias ctr e hne hl h]

/-- Witness for C3: a media whose token is absent from an empty response
produces the missing-correlation error, and that error aborts the upload
call of a client returning that response. -/
theorem resolution_error_contract_witness :
    (∃ m ∈ [tokenedMedia], m.bulk_operation_annotatable_id = some "token-1" ∧
      matchCount m ({} : BulkResponse) = 0) ∧
    (upload droppingClient [tokenedMedia] 0).2
      = .error (.missingCorrelation (some "token-1")) := by
  have h := resolution_error_contract [tokenedMedia] {} droppingClient 0
    (.missingCorrelation (some "token-1"))
  exact ⟨h.2.1 (some "token-1") (by rfl), h.2.2.2 (by decide) (by decide) (by rfl)⟩

/-- C4: when every media of the batch matches exactly one outcome of the
response, and every outcome carries a non-empty server id, resolution
succeeds and every media object of each media carries exactly the server id
of its media's unique outcome — in particular no media object is left with
an empty parent-media reference. -/
theorem resolution_propagates_parent_ids (medias : List HARIMedia)
    (resp : BulkResponse)
    (h1 : ∀ m ∈ medias, matchCount m resp = 1)
    (h2 : ∀ r ∈ resp.results, r.item_id ≠ "") :
    ∃ medias', _update_hari_media_object_media_ids medias resp = .ok medias' ∧
      List.Forall₂ (fun old new =>
        ∃ S, serverIdFor old resp = some S ∧ S ≠ "" ∧
          new.media_objects
            = old.media_objects.map (fun mo => { mo with media_id := S }) ∧
          ∀ mo ∈ new.media_objects, mo.media_id ≠ "")
        medias medias' := by
  induction medias with
  | nil => exact ⟨[], rfl, .nil⟩
  | cons m rest ih =>
    have hm := h1 m (by simp)
    rw [matchCount] at hm
    obtain ⟨r, hr⟩ := List.length_eq_one.mp hm
    obtain ⟨rest', hrest, hforall⟩ := ih (fun m' hm' => h1 m' (by simp [hm']))
    refine ⟨{ m with media_objects :=
        m.media_objects.map (fun mo => { mo with media_id := r.item_id }) } :: rest',
      ?_, ?_⟩
    · rw [_update_hari_media_object_media_ids]
      simp only [hr, hrest]
    · have hrmem : r ∈ resp.results.filter
          (fun x => x.bulk_operation_annotatable_id == m.bulk_operation_annotatable_id) := by
        rw [hr]; simp
      have hrid : r.item_id ≠ "" := h2 r (List.mem_of_mem_filter hrmem)
      refine List.Forall₂.cons ⟨r.item_id, ?_, hrid, rfl, ?_⟩ hforall
      · rw [serverIdFor, hr]; rfl
      · intro mo hmo
        rcases List.mem_map.mp hmo with ⟨mo', _, hmo'⟩
        subst hmo'
        exact hrid

/-- Witness for C4: one media, one matching outcome with non-empty server
id. -/
theorem resolution_propagates_parent_ids_witness :
    (∀ m ∈ [tokenedMedia], matchCount m matchingResp = 1) ∧
    (∀ r ∈ matchingResp.results, r.item_id ≠ "") ∧
    ∃ medias', _update_hari_media_object_media_ids [tokenedMedia] matchingResp
        = .ok medias' ∧
      List.Forall₂ (fun old new =>
        ∃ S, serverIdFor old matchingResp = some S ∧ S ≠ "" ∧
          new.media_objects
            = old.media_objects.map (fun mo => { mo with media_id := S }) ∧
          ∀ mo ∈ new.media_objects, mo.media_id ≠ "")
        [tokenedMedia] medias' :=
  ⟨by decide, by decide,
    resolution_propagates_parent_ids [tokenedMedia] matchingResp
      (by decide) (by decide)⟩

/-- C10: with a positive batch size, every network call of an upload trace
carries a non-empty batch; and when no pending media has any media object,
no media-object batch call happens at all. -/
theorem upload_batch_calls_nonempty (c : HARIClientModel)
    (medias : List HARIMedia) (ctr : Nat) (hl : 1 ≤ c.BULK_UPLOAD_LIMIT) :
    (∀ ev ∈ (upload c medias ctr).1, eventBatchesNonEmpty ev) ∧
    ((∀ m ∈ medias, m.media_objects = []) →
      ∀ ev ∈ (upload c medias ctr).1, ∀ batch, ev ≠ .createMediaObjects batch) := by
  by_cases hne : medias.length = 0
  · have hm : medias = [] := List.length_eq_zero.mp hne
    subst hm
    constructor
    · intro ev hev
      have : ev = .logNothingToUpload := by simpa [upload] using hev
      subst this
      trivial
    · intro _ ev hev
      have : ev = .logNothingToUpload := by simpa [upload] using hev
      subst this
      exact fun batch h => UploadEvent.noConfusion h
  · constructor
    · intro ev hev
      rw [upload_trace_eq c medias ctr hne] at hev
      rcases upload_batches_loop_events c (planBatches c.BULK_UPLOAD_LIMIT medias)
          ctr hl (planBatches_ne_nil c.BULK_UPLOAD_LIMIT hl medias) ev hev with
        ⟨b', hb', rfl⟩ | ⟨b', hb', rfl⟩
      · exact hb'
      · exact hb'
    · intro hmo ev hev
      rw [upload_trace_eq c medias ctr hne] at hev
      exact loop_no_mo_events c (planBatches c.BULK_UPLOAD_LIMIT medias) ctr
        (fun b hb m0 h0 =>
          hmo m0 (planBatches_subset c.BULK_UPLOAD_LIMIT hl medias b hb m0 h0))
        ev hev

/-- Witness for C10: a single media without media objects, uploaded with
batch size 1: all events carry non-empty batches and no media-object batch
call is made. -/
theorem upload_batch_calls_nonempty_witness :
    1 ≤ echoClient.BULK_UPLOAD_LIMIT ∧
    (∀ m ∈ [plainMedia], m.media_objects = []) ∧
    (∀ ev ∈ (upload echoClient [plainMedia] 0).1, eventBatchesNonEmpty ev) ∧
    (∀ ev ∈ (upload echoClient [plainMedia] 0).1,
      ∀ batch, ev ≠ .createMediaObjects batch) := by
  have h := upload_batch_calls_nonempty echoClient [plainMedia] 0 (by decide)
  exact ⟨by decide, by decide, h.1, h.2 (by decide)⟩

/-- Witness for C9: the empty upload of a concrete client. -/
theorem upload_empty_pending_set_witness :
    upload echoClient [] 0 = ([.logNothingToUpload], .ok none) ∧
    ∀ ev ∈ (upload echoClient [] 0).1,
      (∀ batch, ev ≠ .createMedias batch) ∧
      (∀ batch, ev ≠ .createMediaObjects batch) :=
  upload_empty_pending_set echoClient 0

end HariUpload
